import Mathlib

/-!
Verification of the weekday/holiday-checker core (src/script.js and the
unnamed sibling source, referred to below by its function names).

The JavaScript source is embedded shallowly:

* UTC-midnight `Date` objects are represented by their day number
  (days since the Unix epoch, an `Int`); all millisecond arithmetic in the
  source is exactly divisible by `MS_PER_DAY` at the call sites modelled.
* `Date.UTC(y, monthIndex, d)` is modelled by `makeDay`, which performs the
  ECMAScript year fixup (`MakeFullYear`: a year argument 0..99 means
  1900 + year) and month normalization (out-of-range month indices roll
  over into the year, out-of-range days roll over into adjacent months).
  The `TimeClip` cutoff (times beyond 10^8 days from the epoch become an
  invalid date) is not modelled; every theorem below stays far inside the
  representable range.
* `getUTCFullYear/getUTCMonth/getUTCDate` are modelled by `civilFromDays`,
  the standard era-based decomposition of a day number into a civil date.
* `String.prototype.split("-")` and `Number(...)` are modelled on `List Char`
  (`splitDash`, `jsNumber`).  `jsNumber` covers the strings that arise from
  date keys: a digit string maps to its value, the empty string to 0, and
  anything else to `none` (NaN).  Other numeric syntaxes accepted by the
  real `Number` (signs, decimals, exponents) cannot occur in this program:
  the argument has been produced by splitting on every "-".
* `localStorage` plus JSON round-trip is modelled by an association list
  (`Cache`); consing models the `cache[k] = v` overwrite because lookup
  takes the first match.  Cache values are modelled as `HObj` records
  (the entries this program ever stores are plain objects, hence truthy).
* `fetch` is modelled by a `FetchOutcome` supplied as an argument: either a
  transport fault (abort, timeout, CORS, offline - anything that makes the
  `try` block throw) or a response with an HTTP status and an optional JSON
  body (`none` models a body on which `res.json()` rejects).
* the asynchronous `render` is split into its pure pieces: the token
  protocol (`startLookup`/`completeLookup`, mirroring `++lastReqId` and
  `if (reqId !== lastReqId) return`) and the post-resolution view update
  (`applyHolidayResult`, mirroring the final block of `render`).
-/

/-! ## JS string primitives -/

/-- Character for decimal digit `k`, as produced by JS number-to-string. -/
def digitOf (k : Nat) : Char := Char.ofNat (48 + k)

/-- Decimal rendering of a natural number, as JS `String(n)` produces. -/
def natToChars (n : Nat) : List Char :=
  if _h : n < 10 then [digitOf n]
  else natToChars (n / 10) ++ [digitOf (n % 10)]
termination_by n
decreasing_by exact Nat.div_lt_self (by omega) (by omega)

/-- Rendering of an integer, as JS string interpolation of a number. -/
def intToChars (n : Int) : List Char :=
  if n < 0 then '-' :: natToChars (-n).toNat else natToChars n.toNat

/-- Source `pad2`: `String(n).padStart(2, "0")`. -/
def pad2 (n : Nat) : List Char :=
  let s := natToChars n
  if s.length < 2 then '0' :: s else s

/-- Accumulating decimal parser: `some` of the value on an all-digit suffix,
`none` as soon as a non-digit appears. -/
def digitsVal : List Char → Nat → Option Nat
  | [], acc => some acc
  | c :: cs, acc =>
    if c.isDigit then digitsVal cs (acc * 10 + (c.toNat - 48)) else none

/-- JS `Number(s)` on the strings reachable here (see the header comment):
digit strings map to their value, `""` to `0`, anything else to NaN. -/
def jsNumber (l : List Char) : Option Nat := digitsVal l 0

/-- JS `s.split("-")` on the character list of `s`; `"".split("-")` is
`[""]`, and empty fields between consecutive dashes are kept. -/
def splitDash : List Char → List (List Char)
  | [] => [[]]
  | c :: cs =>
    if c = '-' then [] :: splitDash cs
    else
      match splitDash cs with
      | [] => [[c]]
      | t :: ts => (c :: t) :: ts

/-! ## Civil-date arithmetic (model of the ECMAScript Date internals) -/

/-- Gregorian leap-year test. -/
def isLeap (y : Int) : Bool := (y.emod 4 == 0 && y.emod 100 != 0) || y.emod 400 == 0

/-- Days in the months strictly before month `m` of a common year. -/
def monthDaysBefore : Nat → Nat
  | 1 => 0 | 2 => 31 | 3 => 59 | 4 => 90 | 5 => 120 | 6 => 151
  | 7 => 181 | 8 => 212 | 9 => 243 | 10 => 273 | 11 => 304 | 12 => 334
  | _ => 0

/-- Length of month `m` (1-based) of year `y`. -/
def daysInMonth (y : Int) (m : Nat) : Nat :=
  match m with
  | 2 => if isLeap y then 29 else 28
  | 4 => 30 | 6 => 30 | 9 => 30 | 11 => 30
  | _ => 31

/-- Rata-die day number of civil date `y-m-d` (0001-01-01 is day 1);
`m` must be in 1..12, `d` may be any integer (excess days carry over). -/
def rataDie (y : Int) (m : Nat) (d : Int) : Int :=
  365 * (y - 1) + (y - 1).fdiv 4 - (y - 1).fdiv 100 + (y - 1).fdiv 400
    + (monthDaysBefore m : Int) + (if 2 < m ∧ isLeap y then 1 else 0) + d

/-- Rata-die day number of the Unix epoch 1970-01-01. -/
def epochRD : Int := 719163

/-- ECMAScript `MakeFullYear`: an integral year argument between 0 and 99
denotes 1900 + year; all other years pass through. -/
def makeFullYear (y : Int) : Int :=
  if 0 ≤ y ∧ y ≤ 99 then 1900 + y else y

/-- ECMAScript `Date.UTC(y, monthIndex, d)` scaled to days: the year goes
through `MakeFullYear`, the month index is normalized into the year, then
excess days carry over (`TimeClip` is out of range for everything proved
here, see the header). -/
def makeDay (y monthIndex d : Int) : Int :=
  let yr := makeFullYear y
  let ym := yr + monthIndex.fdiv 12
  let mn := (monthIndex.fmod 12).toNat
  rataDie ym (mn + 1) 1 + (d - 1) - epochRD

/-- Era-local part of the day-number-to-civil-date conversion: from a day
of era (`0..146096`, eras of 400 March-based years) to year of era, month
and day. -/
def civilFromDaysCore (doe : Nat) : Nat × Nat × Nat :=
  let yoe := (doe - doe / 1460 + doe / 36524 - doe / 146096) / 365
  let doy := doe - (365 * yoe + yoe / 4 - yoe / 100)
  let mp := (5 * doy + 2) / 153
  let d := doy - (153 * mp + 2) / 5 + 1
  let m := if mp < 10 then mp + 3 else mp - 9
  (yoe, m, d)

/-- Model of `getUTCFullYear/getUTCMonth/getUTCDate`: decompose an epoch day
number into the civil date `(year, month 1..12, day 1..31)`. -/
def civilFromDays (n : Int) : Int × Nat × Nat :=
  let z := n + 719468
  let era := z.fdiv 146097
  let doe := (z.fmod 146097).toNat
  let c := civilFromDaysCore doe
  ((c.1 : Int) + era * 400 + (if c.2.1 ≤ 2 then 1 else 0), c.2.1, c.2.2)

/-- Model of `getUTCDay`: 0 = Sunday .. 6 = Saturday (day 0 of the epoch
was a Thursday). -/
def getUTCDay (n : Int) : Nat := ((n + 4).emod 7).toNat

/-! ## Source date functions -/

/-- Source `ymdToUTCDate`: split on "-", convert the first three fields
with `Number`, feed them to `Date.UTC`.  `none` models an invalid date
(some field NaN, or fewer than three fields leaving `d` undefined). -/
def ymdToUTCDate (s : String) : Option Int :=
  match (splitDash s.data).map jsNumber with
  | y? :: m? :: d? :: _ =>
    match y?, m?, d? with
    | some y, some m, some d => some (makeDay (y : Int) ((m : Int) - 1) (d : Int))
    | _, _, _ => none
  | _ => none

/-- Source `utcDateToYMD`: render year, padded month, padded day. -/
def utcDateToYMD (n : Int) : String :=
  let c := civilFromDays n
  String.mk (intToChars c.1 ++ '-' :: (pad2 c.2.1 ++ '-' :: pad2 c.2.2))

/-- A canonical "YYYY-MM-DD" date key for year `y`, month `m`, day `d`
(the year rendered as-is, month and day zero-padded to two digits) - the
exact shape `utcDateToYMD` emits and `<input type="date">` supplies for
four-digit years. -/
def keyChars (y m d : Nat) : List Char :=
  natToChars y ++ '-' :: (pad2 m ++ '-' :: pad2 d)

/-- Verification-side decomposition: the March-based year of `y-m-d`
(counting the Jan/Feb tail with the preceding year). -/
def marchYY (n m : Nat) : Nat := if m ≤ 2 then n - 1 else n

/-- Verification-side decomposition: the March-based month index 0..11 of
calendar month `m`. -/
def marchMP (m : Nat) : Nat := if m ≤ 2 then m + 9 else m - 3

/-- Verification-side decomposition: the day offset of `m-d` from March 1
within its March-based year. -/
def marchDOY (m d : Nat) : Nat := (153 * marchMP m + 2) / 5 + (d - 1)

/-- Source `mondayStartUTC`: step back to the Monday of the week. -/
def mondayStartUTC (n : Int) : Int := n - ((getUTCDay n + 6) % 7)

/-- Result record of `weekIndexAndRemaining`. -/
structure WeekPos where
  idx : Int
  total : Int
  remain : Int
deriving DecidableEq

/-- Source `weekIndexAndRemaining`: Monday-based week index inside an
inclusive period (the millisecond differences in the source are exact
multiples of `MS_PER_DAY`, so `Math.floor(ms / MS_PER_DAY / 7)` is floor
division of the day difference by 7). -/
def weekIndexAndRemaining (n periodStart periodEnd : Int) : WeekPos :=
  let firstWeekStart := mondayStartUTC periodStart
  let thisWeekStart := mondayStartUTC n
  let lastWeekStart := mondayStartUTC periodEnd
  let idx := (thisWeekStart - firstWeekStart).fdiv 7 + 1
  let total := (lastWeekStart - firstWeekStart).fdiv 7 + 1
  { idx := idx, total := total, remain := max 0 (total - idx) }

/-- Source `getYearPeriodFor`: Jan 1 and Dec 31 of the date's year. -/
def getYearPeriodFor (n : Int) : Int × Int :=
  let y := (civilFromDays n).1
  (makeDay y 0 1, makeDay y 11 31)

/-! ## Holiday cache -/

/-- Wire statuses of holiday results: the source strings "holiday",
"not", "error". -/
inductive HStatus where
  | holiday
  | not
  | error
deriving DecidableEq

/-- A holiday result / cache entry object.  Absent JS properties are
`none`; `ts` is the write timestamp in ms added by `setCached`. -/
structure HObj where
  status : HStatus
  name : Option String := none
  htype : Option String := none
  message : Option String := none
  ts : Option Nat := none
deriving DecidableEq

/-- The persisted mapping from date key to entry (see header comment). -/
abbrev Cache := List (String × HObj)

/-- Property lookup in the persisted mapping; first match wins. -/
def lookupA : Cache → String → Option HObj
  | [], _ => none
  | (k', v) :: rest, k => if k = k' then some v else lookupA rest k

/-- Source `CACHE_TTL_MS`: 120 days in milliseconds. -/
def CACHE_TTL_MS : Nat := 120 * 24 * 60 * 60 * 1000

/-- Source `getCached` with `Date.now()` passed explicitly: absent key is a
miss; an entry with truthy `ts` older than the TTL is a miss; otherwise the
entry is returned.  The second component is the store after the call - the
source body only reads (`loadCache`), so the store passes through. -/
def getCached (cache : Cache) (dateStr : String) (now : Nat) : Option HObj × Cache :=
  match lookupA cache dateStr with
  | none => (none, cache)
  | some v =>
    match v.ts with
    | none => (some v, cache)
    | some t =>
      if t ≠ 0 ∧ (now : Int) - (t : Int) > (CACHE_TTL_MS : Int) then (none, cache)
      else (some v, cache)

/-- Source `setCached`: spread the payload, overwrite `ts` with the current
time, store under the key. -/
def setCached (cache : Cache) (dateStr : String) (payload : HObj) (now : Nat) : Cache :=
  (dateStr, { payload with ts := some now }) :: cache

/-! ## Holiday resolver -/

/-- JSON values as far as this program observes them.  The only properties
ever read from a payload object are `name`, `title` and `type`, which the
holiday authority serves as strings, so object nodes carry exactly those
three optional string fields. -/
inductive JSValue where
  | jnull
  | jbool (b : Bool)
  | jnum (n : Int)
  | jstr (s : String)
  | jarr (elems : List JSValue)
  | jobj (name title htype : Option String)

/-- JS truthiness of a JSON value. -/
def truthy : JSValue → Bool
  | .jnull => false
  | .jbool b => b
  | .jnum n => n != 0
  | .jstr s => s != ""
  | .jarr _ => true
  | .jobj _ _ _ => true

/-- JS `typeof v === "object"` for a JSON value (true for null, arrays
and objects). -/
def typeofObject : JSValue → Bool
  | .jnull => true
  | .jarr _ => true
  | .jobj _ _ _ => true
  | _ => false

/-- JS property access `v.name` (undefined unless an object node). -/
def propName : JSValue → Option String
  | .jobj n _ _ => n
  | _ => none

/-- JS property access `v.title`. -/
def propTitle : JSValue → Option String
  | .jobj _ t _ => t
  | _ => none

/-- JS property access `v.type`. -/
def propType : JSValue → Option String
  | .jobj _ _ ty => ty
  | _ => none

/-- JS `a || b` for an optional string against a string default:
undefined and `""` are falsy. -/
def jsOrS (v : Option String) (dflt : String) : String :=
  match v with
  | some s => if s == "" then dflt else s
  | none => dflt

/-- Source `normalizeHolidayResponse`: `none` models a `null` return,
`some (name, type)` the returned record (both components strings,
defaulted to `""` exactly as `x.name || x.title || ""` does). -/
def normalizeHolidayResponse (json : JSValue) : Option (String × String) :=
  if !truthy json then none
  else
    match json with
    | .jarr elems =>
      match elems with
      | first :: _ =>
        if truthy first && typeofObject first then
          some (jsOrS (propName first) (jsOrS (propTitle first) ""),
                jsOrS (propType first) "")
        else none
      | [] => none
    | .jobj n t ty => some (jsOrS n (jsOrS t ""), jsOrS ty "")
    | _ => none

/-- Outcome of the single `fetchWithTimeout` a cache miss performs:
`fault` is anything that makes the `try` block throw before the status
check (abort on timeout, offline, CORS, ...), `resp status body` a
response, where `body = none` models `res.json()` rejecting. -/
inductive FetchOutcome where
  | fault
  | resp (status : Nat) (body : Option JSValue)

/-- Source `getHolidayByAPI` with `Date.now()` and the network outcome
passed explicitly.  Returns the result object, the store after the call,
and the number of transport calls made. -/
def getHolidayByAPI (cache : Cache) (dateStr : String) (now : Nat) (net : FetchOutcome) :
    HObj × Cache × Nat :=
  match getCached cache dateStr now with
  | (some cached, cache1) => (cached, cache1, 0)
  | (none, cache1) =>
    match net with
    | .fault => ({ status := .error, message := some "network" }, cache1, 1)
    | .resp status body =>
      if status = 404 then
        let payload : HObj := { status := .not }
        (payload, setCached cache1 dateStr payload now, 1)
      else if ¬(200 ≤ status ∧ status ≤ 299) then
        ({ status := .error, message := some ("HTTP " ++ toString status) }, cache1, 1)
      else
        match body with
        | none => ({ status := .error, message := some "network" }, cache1, 1)
        | some json =>
          match normalizeHolidayResponse json with
          | some info =>
            if info.1 ≠ "" then
              let payload : HObj := { status := .holiday, name := some info.1, htype := some info.2 }
              (payload, setCached cache1 dateStr payload now, 1)
            else ({ status := .error, message := some "unexpected response" }, cache1, 1)
          | none => ({ status := .error, message := some "unexpected response" }, cache1, 1)

/-- Spec side: a present, non-empty string field. -/
def specNonEmpty (o : Option String) : Option String :=
  match o with
  | some s => if s ≠ "" then some s else none
  | none => none

/-- Spec side: the non-empty `name` field, or failing that the non-empty
`title` field. -/
def specPick (n t : Option String) : Option String :=
  match specNonEmpty n with
  | some s => some s
  | none => specNonEmpty t

/-- Spec-side payload reading, for comparison with the code: a success
payload "yields a name" when it is a single object, or an array whose
first element is an object, containing a non-empty `name` (or `title`)
field; the yielded name is that field's value. -/
def specPayloadName : JSValue → Option String
  | .jobj n t _ => specPick n t
  | .jarr (.jobj n t _ :: _) => specPick n t
  | _ => none

/-! ## Request coordinator and view update -/

/-- The render coordination state: the `lastReqId` module variable and the
holiday outcome last applied to the view (`none` while pending). -/
structure CoordState where
  lastReqId : Nat := 0
  observed : Option HObj := none
deriving DecidableEq

/-- Start of the async part of `render`: `const reqId = ++lastReqId`. -/
def startLookup (st : CoordState) : Nat × CoordState :=
  (st.lastReqId + 1, { st with lastReqId := st.lastReqId + 1 })

/-- Completion of a lookup: `if (reqId !== lastReqId) return;` - a stale
result changes nothing; a current one becomes the observed outcome. -/
def completeLookup (st : CoordState) (reqId : Nat) (result : HObj) : CoordState :=
  if reqId ≠ st.lastReqId then st
  else { st with observed := some result }

/-- The view fields written by the tail of `render` after the holiday
result arrives. -/
structure RenderView where
  holidayText : String
  holidayName : String
  note : String
  isHoliday : Bool
  isBusinessDay : Bool
  businessDayText : String
deriving DecidableEq

/-- Tail of `render` (after the `reqId` check): classify the result into
the holiday fields, then derive the business-day fields. -/
def applyHolidayResult (isWeekend : Bool) (result : HObj) : RenderView :=
  let part :=
    if result.status = .holiday then
      let nm := jsOrS result.name ""
      let ty := jsOrS result.htype ""
      ("祝日", nm, if ty ≠ "" then "種別：" ++ ty else "", true)
    else if result.status = .not then
      ("祝日ではありません", "", "", false)
    else
      ("取得失敗（通信/応答）", "",
       "ネットワーク状況を確認してください（曜日/暦日/差分/週番号は端末内で表示しています）。",
       false)
  let isBusinessDay := !isWeekend && !part.2.2.2
  { holidayText := part.1, holidayName := part.2.1, note := part.2.2.1,
    isHoliday := part.2.2.2, isBusinessDay := isBusinessDay,
    businessDayText := if isBusinessDay then "営業日" else "休業日（非営業日）" }

/-! ## Helper lemmas -/

/-- The body of `getCached` only reads the store, so the store component of
its result is the store it was given. -/
theorem getCached_snd (cache : Cache) (k : String) (now : Nat) :
    (getCached cache k now).2 = cache := by
  unfold getCached
  repeat' split
  all_goals rfl

/-! ## Claims -/

/-- C1: with lookup A started (token `a.1`), then lookup B started (token
`b.1`) before A completes, B's token is strictly greater; when A completes
after B has started its result is discarded and causes no state update at
all; and whichever order the two lookups complete in, the observed outcome
is B's result. -/
theorem coordinator_latest_started_wins (s0 : CoordState) (rA rB : HObj) :
    (startLookup s0).1 < (startLookup (startLookup s0).2).1 ∧
    completeLookup (startLookup (startLookup s0).2).2 (startLookup s0).1 rA =
      (startLookup (startLookup s0).2).2 ∧
    (completeLookup
        (completeLookup (startLookup (startLookup s0).2).2 (startLookup s0).1 rA)
        (startLookup (startLookup s0).2).1 rB).observed = some rB ∧
    (completeLookup
        (completeLookup (startLookup (startLookup s0).2).2
          (startLookup (startLookup s0).2).1 rB)
        (startLookup s0).1 rA).observed = some rB := by
  simp [startLookup, completeLookup]

/-- C9: when the holiday resolution ends in an Error outcome, the
business-day fields `render` writes are exactly those of the NotHoliday
case: the date counts as a business day iff it is not a weekend. -/
theorem render_error_treated_as_not_holiday (w : Bool) (r : HObj)
    (h : r.status = HStatus.error) :
    (applyHolidayResult w r).isBusinessDay =
      (applyHolidayResult w { status := HStatus.not }).isBusinessDay ∧
    (applyHolidayResult w r).businessDayText =
      (applyHolidayResult w { status := HStatus.not }).businessDayText ∧
    (applyHolidayResult w r).isBusinessDay = !w := by
  simp [applyHolidayResult, h]

/-- Witness for C9 at a concrete error result on a weekday. -/
theorem render_error_treated_as_not_holiday_witness :
    ({ status := HStatus.error, message := some "network" } : HObj).status = HStatus.error ∧
    ((applyHolidayResult false { status := HStatus.error, message := some "network" }).isBusinessDay =
       (applyHolidayResult false { status := HStatus.not }).isBusinessDay ∧
     (applyHolidayResult false { status := HStatus.error, message := some "network" }).businessDayText =
       (applyHolidayResult false { status := HStatus.not }).businessDayText ∧
     (applyHolidayResult false { status := HStatus.error, message := some "network" }).isBusinessDay = !false) :=
  ⟨rfl, render_error_treated_as_not_holiday false
    { status := HStatus.error, message := some "network" } rfl⟩

/-- C10: a cache entry whose `ts` is absent (or 0, which is equally falsy)
is returned by `getCached` whatever the current time - the TTL test is
guarded by the truthiness of `ts`. -/
theorem cache_entry_without_ts_never_expires (cache : Cache) (k : String) (now : Nat)
    (v : HObj) (hv : lookupA cache k = some v) (hts : v.ts = none ∨ v.ts = some 0) :
    (getCached cache k now).1 = some v := by
  rcases hts with h | h <;> simp [getCached, hv, h]

/-- Witness for C10: an entry with no timestamp read arbitrarily far in
the future is still returned. -/
theorem cache_entry_without_ts_never_expires_witness :
    lookupA [("2024-01-01", ({ status := HStatus.not } : HObj))] "2024-01-01" =
      some ({ status := HStatus.not } : HObj) ∧
    (({ status := HStatus.not } : HObj).ts = none ∨
      ({ status := HStatus.not } : HObj).ts = some 0) ∧
    (getCached [("2024-01-01", ({ status := HStatus.not } : HObj))] "2024-01-01"
        (CACHE_TTL_MS * 1000)).1 = some ({ status := HStatus.not } : HObj) :=
  ⟨by decide, Or.inl rfl,
    cache_entry_without_ts_never_expires _ _ _ _ (by decide) (Or.inl rfl)⟩

/-- C5: `put` then immediate `get` returns the stored result with the
write timestamp merged in; a `get` at a time further than the TTL past the
write returns absent - and in both cases the store after the `get` is
exactly the store the `get` was given (lazy invalidation never writes). -/
theorem cache_put_get_roundtrip_and_ttl (cache : Cache) (k : String) (p : HObj)
    (t now : Nat) (hp : p.status = HStatus.holiday ∨ p.status = HStatus.not)
    (ht : 0 < t) (hexp : (now : Int) - (t : Int) > (CACHE_TTL_MS : Int)) :
    getCached (setCached cache k p t) k t =
      (some { p with ts := some t }, setCached cache k p t) ∧
    getCached (setCached cache k p t) k now = (none, setCached cache k p t) := by
  constructor
  · have h1 : ¬((CACHE_TTL_MS : Int) < (t : Int) - (t : Int)) := by omega
    simp [getCached, setCached, lookupA, h1]
  · have h2 : t ≠ 0 := by omega
    have h3 : (CACHE_TTL_MS : Int) < (now : Int) - (t : Int) := hexp
    simp [getCached, setCached, lookupA, h2, h3]

/-- Witness for C5 at a concrete key and payload, with the read clock one
millisecond past the TTL. -/
theorem cache_put_get_roundtrip_and_ttl_witness :
    (({ status := HStatus.not } : HObj).status = HStatus.holiday ∨
      ({ status := HStatus.not } : HObj).status = HStatus.not) ∧
    0 < 1 ∧ ((CACHE_TTL_MS + 2 : Nat) : Int) - ((1 : Nat) : Int) > (CACHE_TTL_MS : Int) ∧
    (getCached (setCached [] "2024-01-01" { status := HStatus.not } 1) "2024-01-01" 1 =
      (some { ({ status := HStatus.not } : HObj) with ts := some 1 },
        setCached [] "2024-01-01" { status := HStatus.not } 1) ∧
     getCached (setCached [] "2024-01-01" { status := HStatus.not } 1) "2024-01-01"
        (CACHE_TTL_MS + 2) =
      (none, setCached [] "2024-01-01" { status := HStatus.not } 1)) :=
  ⟨Or.inr rfl, by decide, by decide,
    cache_put_get_roundtrip_and_ttl [] "2024-01-01" { status := HStatus.not } 1
      (CACHE_TTL_MS + 2) (Or.inr rfl) (by decide) (by decide)⟩

/-- C4: on a fresh cache hit the resolver returns the cached entry itself,
leaves the store untouched, and performs zero transport calls. -/
theorem resolver_cache_hit_no_network (cache : Cache) (k : String) (now : Nat)
    (net : FetchOutcome) (v : HObj) (h : (getCached cache k now).1 = some v) :
    getHolidayByAPI cache k now net = (v, cache, 0) := by
  have hsnd := getCached_snd cache k now
  have hfull : getCached cache k now = (some v, cache) := by
    cases hgc : getCached cache k now with
    | mk o c => rw [hgc] at h hsnd; simp at h hsnd; rw [h, hsnd]
  unfold getHolidayByAPI
  rw [hfull]

/-- Witness for C4: a fresh entry short-circuits even when the transport
would have faulted. -/
theorem resolver_cache_hit_no_network_witness :
    (getCached [("2024-01-01", ({ status := HStatus.not, ts := some 5 } : HObj))]
        "2024-01-01" 6).1 = some ({ status := HStatus.not, ts := some 5 } : HObj) ∧
    getHolidayByAPI [("2024-01-01", ({ status := HStatus.not, ts := some 5 } : HObj))]
        "2024-01-01" 6 FetchOutcome.fault =
      (({ status := HStatus.not, ts := some 5 } : HObj),
        [("2024-01-01", ({ status := HStatus.not, ts := some 5 } : HObj))], 0) :=
  ⟨by decide,
    resolver_cache_hit_no_network _ "2024-01-01" 6 FetchOutcome.fault _ (by decide)⟩

/-- The name check the source performs on a normalized payload agrees with
the spec-side payload reading. -/
theorem normalize_name_eq_specPick (n t : Option String) :
    (if jsOrS n (jsOrS t "") ≠ "" then some (jsOrS n (jsOrS t "")) else none) =
      specPick n t := by
  rcases n with _ | s <;> rcases t with _ | s'
  · rfl
  · by_cases h : s' = "" <;> simp [jsOrS, specPick, specNonEmpty, h]
  · by_cases h : s = "" <;> simp [jsOrS, specPick, specNonEmpty, h]
  · by_cases h : s = "" <;> by_cases h' : s' = "" <;>
      simp [jsOrS, specPick, specNonEmpty, h, h']

/-- The source's combination of `normalizeHolidayResponse` and the
`info && info.name` guard yields exactly the spec-side payload name. -/
theorem normalize_name_eq_spec (j : JSValue) :
    (match normalizeHolidayResponse j with
     | some info => if info.1 ≠ "" then some info.1 else none
     | none => none) = specPayloadName j := by
  cases j with
  | jnull => rfl
  | jbool b => cases b <;> rfl
  | jnum n =>
    by_cases h : n = 0 <;>
      simp [normalizeHolidayResponse, truthy, specPayloadName, h]
  | jstr s =>
    by_cases h : s = "" <;>
      simp [normalizeHolidayResponse, truthy, specPayloadName, h]
  | jobj n t ty =>
    simpa [normalizeHolidayResponse, truthy, specPayloadName] using
      normalize_name_eq_specPick n t
  | jarr elems =>
    rcases elems with _ | ⟨first, rest⟩
    · rfl
    · cases first with
      | jnull => rfl
      | jbool b => cases b <;> rfl
      | jnum m =>
        simp [normalizeHolidayResponse, truthy, typeofObject, specPayloadName]
      | jstr s =>
        simp [normalizeHolidayResponse, truthy, typeofObject, specPayloadName]
      | jarr l => rfl
      | jobj n t ty =>
        simpa [normalizeHolidayResponse, truthy, typeofObject, specPayloadName] using
          normalize_name_eq_specPick n t

/-- C3: the resolver writes the store only for Holiday/NotHoliday
outcomes - an Error outcome leaves the store exactly as found - so a store
holding no Error entry still holds no Error entry after any invocation. -/
theorem resolver_only_caches_success (cache : Cache) (k : String) (now : Nat)
    (net : FetchOutcome)
    (hinv : ∀ k' v, lookupA cache k' = some v → v.status ≠ HStatus.error) :
    ((getHolidayByAPI cache k now net).1.status = HStatus.error →
      (getHolidayByAPI cache k now net).2.1 = cache) ∧
    (∀ k' v, lookupA (getHolidayByAPI cache k now net).2.1 k' = some v →
      v.status ≠ HStatus.error) := by
  have hsnd := getCached_snd cache k now
  unfold getHolidayByAPI
  cases hgc : getCached cache k now with
  | mk o c1 =>
  rw [hgc] at hsnd
  dsimp at hsnd
  subst hsnd
  cases o with
  | some v => exact ⟨fun _ => rfl, hinv⟩
  | none =>
    cases net with
    | fault => exact ⟨fun _ => rfl, hinv⟩
    | resp st body =>
      dsimp only
      by_cases h404 : st = 404
      · rw [if_pos h404]
        refine ⟨fun h => by simp at h, fun k' v' hl => ?_⟩
        simp only [setCached, lookupA] at hl
        split at hl
        · cases hl; simp
        · exact hinv k' v' hl
      · rw [if_neg h404]
        by_cases hok : 200 ≤ st ∧ st ≤ 299
        · rw [if_neg (not_not_intro hok)]
          cases body with
          | none => exact ⟨fun _ => rfl, hinv⟩
          | some j =>
            dsimp only
            cases hinfo : normalizeHolidayResponse j with
            | none => exact ⟨fun _ => rfl, hinv⟩
            | some info =>
              dsimp only
              by_cases hname : info.1 ≠ ""
              · rw [if_pos hname]
                refine ⟨fun h => by simp at h, fun k' v' hl => ?_⟩
                simp only [setCached, lookupA] at hl
                split at hl
                · cases hl; simp
                · exact hinv k' v' hl
              · rw [if_neg hname]
                exact ⟨fun _ => rfl, hinv⟩
        · rw [if_pos hok]
          exact ⟨fun _ => rfl, hinv⟩

/-- Witness for C3: a 404 on an empty store writes only a NotHoliday
entry. -/
theorem resolver_only_caches_success_witness :
    (∀ k' v, lookupA ([] : Cache) k' = some v → v.status ≠ HStatus.error) ∧
    (((getHolidayByAPI [] "2024-01-01" 0 (FetchOutcome.resp 404 none)).1.status =
        HStatus.error →
       (getHolidayByAPI [] "2024-01-01" 0 (FetchOutcome.resp 404 none)).2.1 = []) ∧
     (∀ k' v,
        lookupA (getHolidayByAPI [] "2024-01-01" 0 (FetchOutcome.resp 404 none)).2.1 k' =
          some v → v.status ≠ HStatus.error)) :=
  ⟨fun _ v h => by simp [lookupA] at h,
    resolver_only_caches_success [] "2024-01-01" 0 (FetchOutcome.resp 404 none)
      (fun _ v h => by simp [lookupA] at h)⟩

/-- If the spec-side payload reading yields a name, the source
normalization succeeds with exactly that (non-empty) name. -/
theorem normalize_of_spec_some (j : JSValue) (nm : String)
    (h : specPayloadName j = some nm) :
    ∃ info, normalizeHolidayResponse j = some info ∧ info.1 = nm ∧ nm ≠ "" := by
  have hlink := normalize_name_eq_spec j
  rw [h] at hlink
  cases hinfo : normalizeHolidayResponse j with
  | none => rw [hinfo] at hlink; simp at hlink
  | some info =>
    rw [hinfo] at hlink
    by_cases hne : info.1 = ""
    · simp [hne] at hlink
    · simp [hne] at hlink
      exact ⟨info, rfl, hlink, hlink ▸ hne⟩

/-- If the spec-side payload reading yields no name, the source
normalization either fails or produces an empty name. -/
theorem normalize_of_spec_none (j : JSValue) (h : specPayloadName j = none) :
    normalizeHolidayResponse j = none ∨
      ∃ info, normalizeHolidayResponse j = some info ∧ info.1 = "" := by
  have hlink := normalize_name_eq_spec j
  rw [h] at hlink
  cases hinfo : normalizeHolidayResponse j with
  | none => exact Or.inl rfl
  | some info =>
    rw [hinfo] at hlink
    by_cases hne : info.1 = ""
    · exact Or.inr ⟨info, rfl, hne⟩
    · simp [hne] at hlink

/-- C2: on a cache miss the resolver classifies the network outcome exactly
as the spec states: transport fault (or an unreadable body) gives Error
"network"; 404 gives NotHoliday; any other non-success status gives Error
"HTTP code"; a success body yielding a spec-side payload name gives Holiday
with that name; a success body yielding none gives Error "unexpected
response". -/
theorem resolver_miss_classification (cache : Cache) (k : String) (now : Nat)
    (net : FetchOutcome) (hmiss : (getCached cache k now).1 = none) :
    (net = FetchOutcome.fault →
      (getHolidayByAPI cache k now net).1 =
        { status := HStatus.error, message := some "network" }) ∧
    (∀ st body, net = FetchOutcome.resp st body → st = 404 →
      (getHolidayByAPI cache k now net).1 = { status := HStatus.not }) ∧
    (∀ st body, net = FetchOutcome.resp st body → st ≠ 404 →
      ¬(200 ≤ st ∧ st ≤ 299) →
      (getHolidayByAPI cache k now net).1 =
        { status := HStatus.error, message := some ("HTTP " ++ toString st) }) ∧
    (∀ st, net = FetchOutcome.resp st none → st ≠ 404 → (200 ≤ st ∧ st ≤ 299) →
      (getHolidayByAPI cache k now net).1 =
        { status := HStatus.error, message := some "network" }) ∧
    (∀ st j nm, net = FetchOutcome.resp st (some j) → st ≠ 404 →
      (200 ≤ st ∧ st ≤ 299) → specPayloadName j = some nm →
      (getHolidayByAPI cache k now net).1.status = HStatus.holiday ∧
      (getHolidayByAPI cache k now net).1.name = some nm) ∧
    (∀ st j, net = FetchOutcome.resp st (some j) → st ≠ 404 →
      (200 ≤ st ∧ st ≤ 299) → specPayloadName j = none →
      (getHolidayByAPI cache k now net).1 =
        { status := HStatus.error, message := some "unexpected response" }) := by
  have hsnd := getCached_snd cache k now
  have hfull : getCached cache k now = (none, cache) := by
    cases hgc : getCached cache k now with
    | mk o c => rw [hgc] at hmiss hsnd; simp at hmiss hsnd; rw [hmiss, hsnd]
  unfold getHolidayByAPI
  rw [hfull]
  refine ⟨?_, ?_, ?_, ?_, ?_, ?_⟩
  · rintro rfl
    rfl
  · rintro st body rfl rfl
    rfl
  · rintro st body rfl h404 hnok
    dsimp only
    rw [if_neg h404, if_pos hnok]
  · rintro st rfl h404 hok
    dsimp only
    rw [if_neg h404, if_neg (by simpa using hok)]
  · rintro st j nm rfl h404 hok hspec
    obtain ⟨info, hinfo, hnm, hne⟩ := normalize_of_spec_some j nm hspec
    dsimp only
    rw [if_neg h404, if_neg (by simpa using hok), hinfo]
    dsimp only
    rw [if_pos (by rw [hnm]; exact hne)]
    exact ⟨rfl, by rw [hnm]⟩
  · rintro st j rfl h404 hok hspec
    dsimp only
    rw [if_neg h404, if_neg (by simpa using hok)]
    rcases normalize_of_spec_none j hspec with hinfo | ⟨info, hinfo, hempty⟩
    · rw [hinfo]
    · rw [hinfo]
      dsimp only
      rw [if_neg (by simp [hempty])]

/-- Witness for C2: a transport fault on an empty store is classified as
Error "network". -/
theorem resolver_miss_classification_witness :
    (getCached [] "2024-01-01" 0).1 = none ∧
    (getHolidayByAPI [] "2024-01-01" 0 FetchOutcome.fault).1 =
      { status := HStatus.error, message := some "network" } :=
  ⟨rfl, (resolver_miss_classification [] "2024-01-01" 0 FetchOutcome.fault rfl).1 rfl⟩

/-! ## Date arithmetic lemmas -/

/-- Floor division of natural casts by 4 is the natural division. -/
theorem fdiv_coe4 (a : Nat) : Int.fdiv (a : Int) 4 = ((a / 4 : Nat) : Int) := by
  cases a with
  | zero => rfl
  | succ k => rfl

/-- Floor division of natural casts by 100 is the natural division. -/
theorem fdiv_coe100 (a : Nat) : Int.fdiv (a : Int) 100 = ((a / 100 : Nat) : Int) := by
  cases a with
  | zero => rfl
  | succ k => rfl

/-- Floor division of natural casts by 400 is the natural division. -/
theorem fdiv_coe400 (a : Nat) : Int.fdiv (a : Int) 400 = ((a / 400 : Nat) : Int) := by
  cases a with
  | zero => rfl
  | succ k => rfl

/-- Floor division of natural casts by 12 is the natural division. -/
theorem fdiv_coe12 (a : Nat) : Int.fdiv (a : Int) 12 = ((a / 12 : Nat) : Int) := by
  cases a with
  | zero => rfl
  | succ k => rfl

/-- Floor modulus of natural casts by 12 is the natural modulus. -/
theorem fmod_coe12 (a : Nat) : Int.fmod (a : Int) 12 = ((a % 12 : Nat) : Int) := by
  cases a with
  | zero => rfl
  | succ k => rfl

/-- Floor division of natural casts by 146097 is the natural division. -/
theorem fdiv_coe146097 (a : Nat) : Int.fdiv (a : Int) 146097 = ((a / 146097 : Nat) : Int) := by
  cases a with
  | zero => rfl
  | succ k => rfl

/-- Floor modulus of natural casts by 146097 is the natural modulus. -/
theorem fmod_coe146097 (a : Nat) : Int.fmod (a : Int) 146097 = ((a % 146097 : Nat) : Int) := by
  cases a with
  | zero => rfl
  | succ k => rfl

/-- Truncation of a natural cast recovers the natural number. -/
theorem toNat_coe (a : Nat) : ((a : Int)).toNat = a := rfl

/-- The leap test on a natural cast, in terms of natural moduli. -/
theorem isLeap_iff (n : Nat) :
    isLeap (n : Int) = true ↔ ((n % 4 = 0 ∧ ¬ n % 100 = 0) ∨ n % 400 = 0) := by
  have h4 : (n : Int).emod 4 = ((n % 4 : Nat) : Int) := rfl
  have h100 : (n : Int).emod 100 = ((n % 100 : Nat) : Int) := rfl
  have h400 : (n : Int).emod 400 = ((n % 400 : Nat) : Int) := rfl
  simp [isLeap, h4, h100, h400]
  omega

/-- Splitting a day-of-history count into its 400-year era and day of
era. -/
theorem era_split (yy doy : Nat) (hdoy : doy ≤ 365) :
    (365 * yy + yy / 4 - yy / 100 + yy / 400 + doy) / 146097 = yy / 400 ∧
    (365 * yy + yy / 4 - yy / 100 + yy / 400 + doy) % 146097 =
      365 * (yy % 400) + (yy % 400) / 4 - (yy % 400) / 100 + doy := by
  have h1 : yy / 4 = 100 * (yy / 400) + (yy % 400) / 4 := by omega
  have h2 : yy / 100 = 4 * (yy / 400) + (yy % 400) / 100 := by omega
  have h3 : yy % 400 ≤ 399 := by omega
  omega

set_option maxHeartbeats 4000000 in
/-- The year-of-era recovery formula of `civilFromDaysCore` is exact on
every day of an era. -/
theorem yoe_rec (yoe doy doe : Nat) (h1 : yoe ≤ 399) (h2 : doy ≤ 365)
    (h3 : doy = 365 → ((yoe + 1) % 4 = 0 ∧ (yoe + 1) % 100 ≠ 0) ∨ (yoe + 1) % 400 = 0)
    (hdoe : doe = 365 * yoe + yoe / 4 - yoe / 100 + doy) :
    (doe - doe / 1460 + doe / 36524 - doe / 146096) / 365 = yoe := by
  interval_cases yoe <;> omega

/-- Correctness of the era-local decomposition: feeding the day-of-era of
a valid March-based date back through `civilFromDaysCore` recovers its
year of era, month and day. -/
theorem core_correct (yy doy mp d : Nat)
    (hmp : mp ≤ 11) (hd1 : 1 ≤ d)
    (hdoy : doy = (153 * mp + 2) / 5 + (d - 1))
    (hdoy365 : doy ≤ 365)
    (hleap : doy = 365 →
      ((yy % 400 + 1) % 4 = 0 ∧ (yy % 400 + 1) % 100 ≠ 0) ∨ (yy % 400 + 1) % 400 = 0)
    (hdub : d ≤ (153 * (mp + 1) + 2) / 5 - (153 * mp + 2) / 5) :
    civilFromDaysCore ((365 * yy + yy / 4 - yy / 100 + yy / 400 + doy) % 146097) =
      (yy % 400, (if mp < 10 then mp + 3 else mp - 9), d) := by
  obtain ⟨-, hmod⟩ := era_split yy doy hdoy365
  rw [hmod]
  have hyoe := yoe_rec (yy % 400) doy
    (365 * (yy % 400) + (yy % 400) / 4 - (yy % 400) / 100 + doy)
    (by omega) hdoy365 hleap rfl
  simp only [civilFromDaysCore]
  rw [hyoe]
  have hdoyR : (365 * (yy % 400) + (yy % 400) / 4 - (yy % 400) / 100 + doy) -
      (365 * (yy % 400) + (yy % 400) / 4 - (yy % 400) / 100) = doy := by omega
  rw [hdoyR]
  have hmpr : (5 * doy + 2) / 153 = mp := by interval_cases mp <;> omega
  rw [hmpr]
  simp only [Prod.mk.injEq]
  exact ⟨trivial, trivial, by omega⟩

/-- On a year beyond the two-digit fixup range and an in-range month
index, `Date.UTC` performs no rollover: `makeDay` is the rata-die day
number shifted to the epoch. -/
theorem makeDay_eq_rataDie (y : Int) (m d : Nat) (hy : 100 ≤ y)
    (hm1 : 1 ≤ m) (hm2 : m ≤ 12) :
    makeDay y ((m : Int) - 1) (d : Int) = rataDie y m (d : Int) - epochRD := by
  have e1 : ((m : Int) - 1) = ((m - 1 : Nat) : Int) := by omega
  have hfy : makeFullYear y = y := by
    unfold makeFullYear
    rw [if_neg (by omega)]
  simp only [makeDay, hfy]
  rw [e1, fdiv_coe12, fmod_coe12]
  have h1 : (m - 1) / 12 = 0 := by omega
  have h2 : (m - 1) % 12 = m - 1 := by omega
  have h3 : m - 1 + 1 = m := by omega
  rw [h1, h2, toNat_coe, h3]
  simp only [Nat.cast_zero, add_zero]
  unfold rataDie
  ring

set_option maxHeartbeats 2000000 in
/-- Bridging the calendar-based rata-die count to the March-based era
decomposition. -/
theorem rataDie_shift (n m d : Nat) (hn : 1 ≤ n) (hm1 : 1 ≤ m) (hm2 : m ≤ 12)
    (hd1 : 1 ≤ d) (hd2 : d ≤ daysInMonth (n : Int) m) :
    rataDie (n : Int) m (d : Int) - epochRD + 719468 =
      ((365 * marchYY n m + marchYY n m / 4 - marchYY n m / 100 + marchYY n m / 400
        + marchDOY m d : Nat) : Int) := by
  have e1 : ((n : Int) - 1) = ((n - 1 : Nat) : Int) := by omega
  have hl := isLeap_iff n
  simp only [rataDie, epochRD]
  rw [e1, fdiv_coe4, fdiv_coe100, fdiv_coe400]
  by_cases hleap : isLeap (n : Int) = true
  · have hp := hl.mp hleap
    interval_cases m <;>
      simp [monthDaysBefore, marchYY, marchMP, marchDOY, daysInMonth, hleap] at hd2 ⊢ <;>
      omega
  · have hp : ¬((n % 4 = 0 ∧ ¬ n % 100 = 0) ∨ n % 400 = 0) := fun hx => hleap (hl.mpr hx)
    rw [Bool.not_eq_true] at hleap
    interval_cases m <;>
      simp [monthDaysBefore, marchYY, marchMP, marchDOY, daysInMonth, hleap] at hd2 ⊢ <;>
      omega

set_option maxHeartbeats 2000000 in
/-- The day offset from March 1 of a valid date is at most 365, and it is
365 only on the leap day, whose March-based year of era precedes a leap
year. -/
theorem marchDOY_le (n m d : Nat) (hn : 1 ≤ n) (hm1 : 1 ≤ m) (hm2 : m ≤ 12)
    (hd1 : 1 ≤ d) (hd2 : d ≤ daysInMonth (n : Int) m) :
    marchDOY m d ≤ 365 ∧
    (marchDOY m d = 365 →
      ((marchYY n m % 400 + 1) % 4 = 0 ∧ (marchYY n m % 400 + 1) % 100 ≠ 0) ∨
        (marchYY n m % 400 + 1) % 400 = 0) := by
  have hl := isLeap_iff n
  by_cases hleap : isLeap (n : Int) = true
  · have hp := hl.mp hleap
    interval_cases m <;>
      simp [marchDOY, marchMP, marchYY, daysInMonth, hleap] at hd2 ⊢ <;>
      omega
  · have hp : ¬((n % 4 = 0 ∧ ¬ n % 100 = 0) ∨ n % 400 = 0) := fun hx => hleap (hl.mpr hx)
    rw [Bool.not_eq_true] at hleap
    interval_cases m <;>
      simp [marchDOY, marchMP, marchYY, daysInMonth, hleap] at hd2 ⊢ <;>
      omega

/-- The March-based month index stays below 12. -/
theorem marchMP_le (m : Nat) (hm1 : 1 ≤ m) (hm2 : m ≤ 12) : marchMP m ≤ 11 := by
  unfold marchMP
  split <;> omega

set_option maxHeartbeats 2000000 in
/-- A valid day number fits the March-based month length. -/
theorem marchDUB (n m d : Nat) (hm1 : 1 ≤ m) (hm2 : m ≤ 12)
    (hd2 : d ≤ daysInMonth (n : Int) m) :
    d ≤ (153 * (marchMP m + 1) + 2) / 5 - (153 * marchMP m + 2) / 5 := by
  by_cases hleap : isLeap (n : Int) = true <;>
    interval_cases m <;>
      simp [marchMP, daysInMonth, hleap] at hd2 ⊢ <;>
      omega

set_option maxHeartbeats 2000000 in
/-- Round trip of the civil-date conversions: decomposing the day number
of any valid calendar date recovers exactly its year, month and day. -/
theorem civilFromDays_rataDie (n m d : Nat) (hn : 1 ≤ n) (hm1 : 1 ≤ m) (hm2 : m ≤ 12)
    (hd1 : 1 ≤ d) (hd2 : d ≤ daysInMonth (n : Int) m) :
    civilFromDays (rataDie (n : Int) m (d : Int) - epochRD) = ((n : Int), m, d) := by
  have hA := rataDie_shift n m d hn hm1 hm2 hd1 hd2
  obtain ⟨hb1, hb2⟩ := marchDOY_le n m d hn hm1 hm2 hd1 hd2
  have hcore := core_correct (marchYY n m) (marchDOY m d) (marchMP m) d
    (marchMP_le m hm1 hm2) hd1 rfl hb1 hb2 (marchDUB n m d hm1 hm2 hd2)
  obtain ⟨hdiv, -⟩ := era_split (marchYY n m) (marchDOY m d) hb1
  simp only [civilFromDays]
  rw [hA, fdiv_coe146097, fmod_coe146097, toNat_coe, hdiv, hcore]
  interval_cases m <;>
    simp [marchYY, marchMP, Prod.mk.injEq] <;> omega

/-! ## String lemmas -/

/-- Digit characters are decimal digits. -/
theorem digitOf_isDigit (k : Nat) (h : k < 10) : (digitOf k).isDigit = true := by
  interval_cases k <;> decide

/-- Code point of a digit character. -/
theorem digitOf_toNat (k : Nat) (h : k < 10) : (digitOf k).toNat = 48 + k := by
  interval_cases k <;> decide

/-- Parsing a concatenation parses the pieces in sequence. -/
theorem digitsVal_append (l1 l2 : List Char) (acc : Nat) :
    digitsVal (l1 ++ l2) acc =
      match digitsVal l1 acc with
      | some acc2 => digitsVal l2 acc2
      | none => none := by
  induction l1 generalizing acc with
  | nil => rfl
  | cons c cs ih =>
    simp only [List.cons_append, digitsVal]
    split
    · exact ih _
    · rfl

/-- Parsing the decimal rendering of `n` appends `n` below the
accumulator. -/
theorem natToChars_digitsVal (n : Nat) :
    ∀ acc, digitsVal (natToChars n) acc = some (acc * 10 ^ (natToChars n).length + n) := by
  induction n using Nat.strong_induction_on with
  | _ n ih =>
    intro acc
    rw [natToChars]
    by_cases h : n < 10
    · rw [dif_pos h]
      simp [digitsVal, digitOf_isDigit n h, digitOf_toNat n h]
    · rw [dif_neg h]
      rw [digitsVal_append]
      rw [ih (n / 10) (Nat.div_lt_self (by omega) (by omega))]
      have h10 : n % 10 < 10 := Nat.mod_lt _ (by omega)
      simp only [digitsVal, digitOf_isDigit _ h10, digitOf_toNat _ h10, if_true,
        List.length_append, List.length_cons, List.length_nil]
      congr 1
      have e1 : 48 + n % 10 - 48 = n % 10 := by omega
      rw [e1]
      have key : n / 10 * 10 + n % 10 = n := by omega
      calc (acc * 10 ^ (natToChars (n / 10)).length + n / 10) * 10 + n % 10
          = acc * (10 ^ (natToChars (n / 10)).length * 10) + (n / 10 * 10 + n % 10) := by
            ring
        _ = acc * 10 ^ ((natToChars (n / 10)).length + (0 + 1)) + n := by
            rw [key, pow_succ]

/-- Every character of a decimal rendering is a digit. -/
theorem natToChars_digits (n : Nat) : ∀ c ∈ natToChars n, c.isDigit = true := by
  induction n using Nat.strong_induction_on with
  | _ n ih =>
    rw [natToChars]
    by_cases h : n < 10
    · rw [dif_pos h]
      intro c hc
      simp only [List.mem_singleton] at hc
      subst hc
      exact digitOf_isDigit n h
    · rw [dif_neg h]
      intro c hc
      rcases List.mem_append.mp hc with h1 | h2
      · exact ih (n / 10) (Nat.div_lt_self (by omega) (by omega)) c h1
      · simp only [List.mem_singleton] at h2
        subst h2
        exact digitOf_isDigit _ (Nat.mod_lt _ (by omega))

/-- A digit is not a dash. -/
theorem isDigit_ne_dash (c : Char) (h : c.isDigit = true) : c ≠ '-' := by
  intro e
  subst e
  exact absurd h (by decide)

/-- JS `Number` inverts the decimal rendering. -/
theorem jsNumber_natToChars (n : Nat) : jsNumber (natToChars n) = some n := by
  unfold jsNumber
  rw [natToChars_digitsVal n 0]
  simp

/-- JS `Number` inverts the zero-padded rendering. -/
theorem jsNumber_pad2 (n : Nat) : jsNumber (pad2 n) = some n := by
  unfold pad2 jsNumber
  dsimp only
  split
  · show digitsVal ('0' :: natToChars n) 0 = some n
    show (if ('0' : Char).isDigit then
        digitsVal (natToChars n) (0 * 10 + (('0' : Char).toNat - 48)) else none) = some n
    rw [if_pos (by decide)]
    have e : (0 * 10 + (('0' : Char).toNat - 48)) = 0 := by decide
    rw [e, natToChars_digitsVal n 0]
    simp
  · rw [natToChars_digitsVal n 0]
    simp

/-- Every character of the zero-padded rendering is a digit. -/
theorem pad2_digits (n : Nat) : ∀ c ∈ pad2 n, c.isDigit = true := by
  unfold pad2
  dsimp only
  split
  · intro c hc
    rcases List.mem_cons.mp hc with h1 | h2
    · subst h1; decide
    · exact natToChars_digits n c h2
  · exact natToChars_digits n

/-- Splitting a dash-free string yields the single field. -/
theorem splitDash_nodash (l : List Char) (h : ∀ c ∈ l, c ≠ '-') : splitDash l = [l] := by
  induction l with
  | nil => rfl
  | cons c cs ih =>
    simp only [splitDash]
    rw [if_neg (h c (by simp))]
    rw [ih (fun c' hc' => h c' (by simp [hc']))]

/-- Splitting detaches a dash-free field before the first dash. -/
theorem splitDash_append (l1 rest : List Char) (h : ∀ c ∈ l1, c ≠ '-') :
    splitDash (l1 ++ '-' :: rest) = l1 :: splitDash rest := by
  induction l1 with
  | nil =>
    simp [splitDash]
  | cons c cs ih =>
    simp only [List.cons_append, splitDash, List.append_eq]
    rw [if_neg (h c (by simp))]
    rw [ih (fun c' hc' => h c' (by simp [hc']))]

/-- The character list of a structurally built string. -/
theorem string_mk_data (l : List Char) : (String.mk l).data = l := rfl

/-- Parsing a canonical key (for any numeric year, month and day
components - validity is not consulted) reaches `Date.UTC` with the three
numbers. -/
theorem ymdToUTCDate_key (y m d : Nat) :
    ymdToUTCDate (String.mk (keyChars y m d)) =
      some (makeDay (y : Int) ((m : Int) - 1) (d : Int)) := by
  unfold ymdToUTCDate keyChars
  rw [string_mk_data]
  rw [splitDash_append _ _ (fun c hc => isDigit_ne_dash c (natToChars_digits y c hc))]
  rw [splitDash_append _ _ (fun c hc => isDigit_ne_dash c (pad2_digits m c hc))]
  rw [splitDash_nodash _ (fun c hc => isDigit_ne_dash c (pad2_digits d c hc))]
  simp only [List.map_cons, jsNumber_natToChars, jsNumber_pad2, List.map_nil]

/-! ## Remaining claims -/

/-- C6 counterexample: `ymdToUTCDate "2024-13-01"` does not fail - it
produces the valid day number 20089, which formats back as "2025-01-01":
month 13 is accepted and rolled over, with no FormatError anywhere. -/
theorem parse_month13_counterexample :
    ymdToUTCDate "2024-13-01" = some 20089 ∧
    utcDateToYMD 20089 = "2025-01-01" := by
  constructor
  · decide
  · simp only [utcDateToYMD]
    rw [show civilFromDays 20089 = ((2025 : Int), 1, 1) by decide]
    dsimp only
    have hint : intToChars (2025 : Int) = natToChars 2025 := by
      unfold intToChars
      rw [if_neg (by omega)]
      rfl
    rw [hint]
    rw [natToChars, natToChars, natToChars, natToChars]
    norm_num
    rw [pad2]
    rw [natToChars]
    norm_num
    decide

/-- C6 (amended): on date-key-shaped numeric fields `ymdToUTCDate`
validates nothing and raises no FormatError - the three numbers go
straight into `Date.UTC`'s normalizing arithmetic: month 13 of a year
from 100 up is accepted as January of the following year, and a year
field of 0..99 is read as 1900 + year. -/
theorem parse_accepts_any_numeric_triple (y m d : Nat)
    (hy1 : 100 ≤ y) (hy2 : y ≤ 9998) (hm : m ≤ 99) (hd : d ≤ 99) :
    ymdToUTCDate (String.mk (keyChars y m d)) =
      some (makeDay (y : Int) ((m : Int) - 1) (d : Int)) ∧
    ymdToUTCDate (String.mk (keyChars y 13 d)) =
      ymdToUTCDate (String.mk (keyChars (y + 1) 1 d)) ∧
    (∀ y2 : Nat, y2 ≤ 99 →
      ymdToUTCDate (String.mk (keyChars y2 m d)) =
        ymdToUTCDate (String.mk (keyChars (1900 + y2) m d))) := by
  refine ⟨ymdToUTCDate_key y m d, ?_, ?_⟩
  · rw [ymdToUTCDate_key, ymdToUTCDate_key]
    have e1 : ((13 : Nat) : Int) - 1 = 12 := by norm_num
    have e2 : ((1 : Nat) : Int) - 1 = 0 := by norm_num
    rw [e1, e2]
    have f1 : (12 : Int).fdiv 12 = 1 := by decide
    have f2 : (12 : Int).fmod 12 = 0 := by decide
    have f3 : (0 : Int).fdiv 12 = 0 := by decide
    have f4 : (0 : Int).fmod 12 = 0 := by decide
    have f5 : (0 : Int).toNat = 0 := rfl
    have g1 : makeFullYear ((y : Nat) : Int) = ((y : Nat) : Int) := by
      unfold makeFullYear
      rw [if_neg (by omega)]
    have g2 : makeFullYear (((y + 1 : Nat) : Nat) : Int) = (((y + 1 : Nat) : Nat) : Int) := by
      unfold makeFullYear
      rw [if_neg (by push_cast; omega)]
    simp only [makeDay, f1, f2, f3, f4, f5, g1, g2]
    push_cast
    ring_nf
  · intro y2 hy2
    rw [ymdToUTCDate_key, ymdToUTCDate_key]
    have g1 : makeFullYear ((y2 : Nat) : Int) = 1900 + ((y2 : Nat) : Int) := by
      unfold makeFullYear
      rw [if_pos (by omega)]
    have g2 : makeFullYear (((1900 + y2 : Nat) : Nat) : Int) = (((1900 + y2 : Nat) : Nat) : Int) := by
      unfold makeFullYear
      rw [if_neg (by push_cast; omega)]
    simp only [makeDay, g1, g2]
    push_cast
    ring_nf

/-- Witness for C6 (amended) at year 2024 with the month-13 field: the
rolled-over parse and both fixup facts instantiated. -/
theorem parse_accepts_any_numeric_triple_witness :
    ((100 : Nat) ≤ 2024 ∧ (2024 : Nat) ≤ 9998 ∧ (13 : Nat) ≤ 99 ∧ (1 : Nat) ≤ 99) ∧
    (ymdToUTCDate (String.mk (keyChars 2024 13 1)) =
       some (makeDay ((2024 : Nat) : Int) (((13 : Nat) : Int) - 1) ((1 : Nat) : Int)) ∧
     ymdToUTCDate (String.mk (keyChars 2024 13 1)) =
       ymdToUTCDate (String.mk (keyChars (2024 + 1) 1 1)) ∧
     (∀ y2 : Nat, y2 ≤ 99 →
       ymdToUTCDate (String.mk (keyChars y2 13 1)) =
         ymdToUTCDate (String.mk (keyChars (1900 + y2) 13 1)))) :=
  ⟨⟨by decide, by decide, by decide, by decide⟩,
    parse_accepts_any_numeric_triple 2024 13 1 (by decide) (by decide) (by decide) (by decide)⟩

/-- C7: for every canonical date key of a real calendar date (four-digit
year), serializing the parsed date reproduces the key exactly. -/
theorem key_parse_roundtrip (y m d : Nat) (hy1 : 1000 ≤ y) (hy2 : y ≤ 9999)
    (hm1 : 1 ≤ m) (hm2 : m ≤ 12) (hd1 : 1 ≤ d) (hd2 : d ≤ daysInMonth (y : Int) m) :
    Option.map utcDateToYMD (ymdToUTCDate (String.mk (keyChars y m d))) =
      some (String.mk (keyChars y m d)) := by
  rw [ymdToUTCDate_key]
  rw [Option.map_some']
  rw [makeDay_eq_rataDie _ _ _ (by omega) hm1 hm2]
  unfold utcDateToYMD keyChars
  rw [civilFromDays_rataDie y m d (by omega) hm1 hm2 hd1 hd2]
  dsimp only
  have hint : intToChars (y : Int) = natToChars y := by
    unfold intToChars
    rw [if_neg (by omega), toNat_coe]
  rw [hint]

/-- Witness for C7 at the key "2024-01-05". -/
theorem key_parse_roundtrip_witness :
    (1000 ≤ 2024 ∧ 2024 ≤ 9999 ∧ 1 ≤ 1 ∧ (1 : Nat) ≤ 12 ∧ 1 ≤ 5 ∧
      5 ≤ daysInMonth ((2024 : Nat) : Int) 1) ∧
    Option.map utcDateToYMD (ymdToUTCDate (String.mk (keyChars 2024 1 5))) =
      some (String.mk (keyChars 2024 1 5)) :=
  ⟨⟨by decide, by decide, by decide, by decide, by decide, by decide⟩,
    key_parse_roundtrip 2024 1 5 (by decide) (by decide) (by decide) (by decide)
      (by decide) (by decide)⟩

/-- C8: the week position computed by `weekIndexAndRemaining` satisfies the
spec formulas (index and total are the floor of the day distance between
Monday anchors divided by 7, plus one; weeksRemaining is their clamped
difference), `mondayStartUTC` really is the Monday of the containing week,
and for the calendar-year period of 2024 evaluated at 2024-01-01 the index
is 1. -/
theorem weekPosition_matches_spec :
    (∀ n s e : Int,
      (weekIndexAndRemaining n s e).idx = (mondayStartUTC n - mondayStartUTC s).fdiv 7 + 1 ∧
      (weekIndexAndRemaining n s e).total = (mondayStartUTC e - mondayStartUTC s).fdiv 7 + 1 ∧
      (weekIndexAndRemaining n s e).remain =
        max 0 ((weekIndexAndRemaining n s e).total - (weekIndexAndRemaining n s e).idx)) ∧
    (∀ n : Int, getUTCDay (mondayStartUTC n) = 1 ∧ mondayStartUTC n ≤ n ∧
      n - mondayStartUTC n < 7) ∧
    (weekIndexAndRemaining (makeDay 2024 0 1) (getYearPeriodFor (makeDay 2024 0 1)).1
        (getYearPeriodFor (makeDay 2024 0 1)).2).idx = 1 := by
  refine ⟨fun n s e => ⟨rfl, rfl, rfl⟩, fun n => ?_, by decide⟩
  have h1 : 0 ≤ (n + 4).emod 7 := Int.emod_nonneg _ (by norm_num)
  have h2 : (n + 4).emod 7 < 7 := Int.emod_lt_of_pos _ (by norm_num)
  have hemod : ∀ a b : Int, a.emod b = a % b := fun _ _ => rfl
  simp only [getUTCDay, mondayStartUTC, hemod]
  refine ⟨?_, ?_, ?_⟩ <;> omega
